import Mathlib

/-!
Verification of the kaniko build engine (pkg/executor/build.go,
pkg/util/image_util.go, pkg/commands, pkg/dockerfile) against its
natural-language specification.  Go code is shallowly embedded: Go slices
that distinguish nil from empty become Option-valued fields, fallible Go
functions return Except, and external collaborators (registry, parser,
filesystem) are passed in as explicit oracles.
-/

namespace Kaniko

/-- Mirrors the fields of v1.Config used by the executor.  Go slice fields
whose nil/non-nil distinction the code observes (Cmd, Entrypoint, OnBuild)
are Option-valued; none stands for a Go nil slice. -/
structure Config where
  env : List String := []
  cmd : Option (List String) := none
  entrypoint : Option (List String) := none
  shell : List String := []
  argsEscaped : Bool := false
  onBuild : Option (List String) := none
  workingDir : String := ""
  volumes : List String := []
deriving Repr, DecidableEq

/-- Mirrors v1.ConfigFile as used by the executor: the wrapped Config. -/
structure ConfigFile where
  config : Config := {}
deriving Repr, DecidableEq

/-- Mirrors the fields of config.KanikoOptions read by the embedded code. -/
structure KanikoOptions where
  buildArgs : List String := []
  singleSnapshot : Bool := false
  cache : Bool := false
  reproducible : Bool := false
  cleanup : Bool := false
  snapshotMode : String := "full"
deriving Repr, DecidableEq

/-- Mirrors instructions.Command as seen by build.go: an instruction
carrying its Name() string (build.go only ever calls Name on these). -/
structure Instr where
  name : String
deriving Repr, DecidableEq

/-- Mirrors the fields of config.KanikoStage read by the embedded code. -/
structure KanikoStage where
  name : String := ""
  baseName : String := ""
  final : Bool := false
  saveStage : Bool := false
  baseImageStoredLocally : Bool := false
  baseImageIndex : Nat := 0
  metaArgs : List (String × String) := []
  commands : List Instr := []
deriving Repr, DecidableEq

/-- Embeds stageBuilder.shouldTakeSnapshot (build.go).  The index is an Int
because Go computes len(s.stage.Commands)-1 in int arithmetic.  The files
argument models the Go slice: none is a nil slice, some fs a non-nil one. -/
def shouldTakeSnapshot (stage : KanikoStage) (opts : KanikoOptions)
    (index : Int) (files : Option (List String)) : Bool :=
  let isLastCommand := index == (stage.commands.length : Int) - 1
  if !stage.final then isLastCommand
  else if opts.singleSnapshot then isLastCommand
  else match files with
    | none => true
    | some fs => if fs.length == 0 then false else true

/-- Mirrors the fields of instructions.CmdCommand used by
CmdCommand.ExecuteCommand (pkg/commands/cmd.go). -/
structure CmdInstr where
  cmdLine : List String := []
  prependShell : Bool := false
deriving Repr, DecidableEq

/-- Embeds CmdCommand.ExecuteCommand (pkg/commands/cmd.go): builds the new
command line, writes it to config.Cmd and sets ArgsEscaped. -/
def cmdExecuteCommand (c : CmdInstr) (config : Config) : Except String Config :=
  let newCommand :=
    if c.prependShell then
      (if 0 < config.shell.length then config.shell else ["/bin/sh", "-c"])
        ++ [String.intercalate " " c.cmdLine]
    else c.cmdLine
  .ok { config with cmd := some newCommand, argsEscaped := true }

/-- Follows the words of claim C10: the command line that a CMD instruction
is said to install, shell-prepended using config.Shell, or /bin/sh -c when
config.Shell is empty, when PrependShell is set. -/
def claimCmdNewCommand (c : CmdInstr) (config : Config) : List String :=
  if c.prependShell then
    (if config.shell = [] then ["/bin/sh", "-c"] else config.shell)
      ++ [String.intercalate " " c.cmdLine]
  else c.cmdLine

/-- C4: shouldTakeSnapshot decides exactly as specified: in a non-final
stage it returns true only for the last instruction; with SingleSnapshot on
it returns true only for the last instruction; otherwise it returns true
when the file list is nil, false when the list is empty, and true for any
non-empty list. -/
theorem claim_C4_shouldTakeSnapshot (stage : KanikoStage) (opts : KanikoOptions)
    (index : Int) (files : Option (List String)) :
    (stage.final = false →
      (shouldTakeSnapshot stage opts index files = true ↔
        index = (stage.commands.length : Int) - 1)) ∧
    (opts.singleSnapshot = true →
      (shouldTakeSnapshot stage opts index files = true ↔
        index = (stage.commands.length : Int) - 1)) ∧
    (stage.final = true → opts.singleSnapshot = false →
      (files = none → shouldTakeSnapshot stage opts index files = true) ∧
      (files = some [] → shouldTakeSnapshot stage opts index files = false) ∧
      (∀ f fs, files = some (f :: fs) →
        shouldTakeSnapshot stage opts index files = true)) := by
  refine ⟨?_, ?_, ?_⟩
  · intro hf
    simp [shouldTakeSnapshot, hf]
  · intro hs
    cases hf : stage.final <;> simp [shouldTakeSnapshot, hf, hs]
  · intro hf hs
    refine ⟨?_, ?_, ?_⟩
    · rintro rfl
      simp [shouldTakeSnapshot, hf, hs]
    · rintro rfl
      simp [shouldTakeSnapshot, hf, hs]
    · rintro f fs rfl
      simp [shouldTakeSnapshot, hf, hs]

/-- Witness for C4: concrete evaluations discharging every hypothesis of
the claim theorem. -/
theorem claim_C4_shouldTakeSnapshot_witness :
    shouldTakeSnapshot { final := true } { singleSnapshot := false } 0 none = true ∧
    shouldTakeSnapshot { final := true } { singleSnapshot := false } 0 (some []) = false ∧
    shouldTakeSnapshot { final := true } { singleSnapshot := false } 0 (some ["/a"]) = true ∧
    shouldTakeSnapshot { final := false } { singleSnapshot := false } 5 (some ["/a"]) = false := by
  refine ⟨?_, ?_, ?_, ?_⟩
  · exact ((claim_C4_shouldTakeSnapshot { final := true } { singleSnapshot := false }
      0 none).2.2 rfl rfl).1 rfl
  · exact ((claim_C4_shouldTakeSnapshot { final := true } { singleSnapshot := false }
      0 (some [])).2.2 rfl rfl).2.1 rfl
  · exact ((claim_C4_shouldTakeSnapshot { final := true } { singleSnapshot := false }
      0 (some ["/a"])).2.2 rfl rfl).2.2 "/a" [] rfl
  · by_contra h
    have := ((claim_C4_shouldTakeSnapshot { final := false } { singleSnapshot := false }
      5 (some ["/a"])).1 rfl).mp (by simpa using h)
    simp at this

/-- C10: every execution of CmdCommand.ExecuteCommand succeeds, sets
ArgsEscaped to true and replaces config.Cmd entirely with the new command
line, regardless of the prior Cmd value. -/
theorem claim_C10_cmdExecute (c : CmdInstr) (config : Config) :
    cmdExecuteCommand c config =
      .ok { config with cmd := some (claimCmdNewCommand c config),
                        argsEscaped := true } := by
  unfold cmdExecuteCommand claimCmdNewCommand
  cases hs : config.shell with
  | nil => simp
  | cons a l => simp

/-- Mirrors a v1.Layer as far as the executor observes it: the tar it was
created from. -/
structure Layer where
  tarPath : String
deriving Repr, DecidableEq

/-- Mirrors v1.History entries appended by build.go.  mutate.Append leaves
EmptyLayer at its zero value (false). -/
structure HistoryEntry where
  author : String := ""
  createdBy : String := ""
  emptyLayer : Bool := false
deriving Repr, DecidableEq

/-- Mirrors a v1.Image as far as the executor observes it: its ordered
layers and its history. -/
structure Image where
  layers : List Layer := []
  history : List HistoryEntry := []
deriving Repr, DecidableEq

/-- Embeds mutate.Append: appends the layer and its history record. -/
def mutateAppend (img : Image) (layer : Layer) (h : HistoryEntry) : Image :=
  { img with layers := img.layers ++ [layer], history := img.history ++ [h] }

/-- Constant emptyTarSize from build.go (the size of an empty tar in Go). -/
def emptyTarSize : Nat := 1024

/-- Modelled from the spec: pkg/constants is absent from src/; the author
string recorded in history entries. -/
def constantsAuthor : String := "kaniko"

/-- Oracles for the filesystem and cache effects of saveSnapshotToImage:
os.Stat(...).Size(), tarball.LayerFromFile, and pushLayerToCache (the
latter is code of this repository absent from src/, modelled from the spec
as a fallible push keyed by the composite hash). -/
structure SnapshotEnv where
  statSize : String → Except String Nat
  layerFromFile : String → Except String Layer
  pushLayerToCache : KanikoOptions → List String → Layer → String → Except String Unit

/-- Embeds stageBuilder.saveSnapshotToImage (build.go): an empty tarPath or
a tar of size at most emptyTarSize returns without touching the image; a
cache-push error is returned; otherwise the layer is appended with a
history record naming the instruction. -/
def saveSnapshotToImage (env : SnapshotEnv) (opts : KanikoOptions) (img : Image)
    (createdBy : String) (ck : List String) (tarPath : String) :
    Except String Image :=
  if tarPath == "" then .ok img
  else
    match env.statSize tarPath with
    | .error e => .error e
    | .ok sz =>
      if sz ≤ emptyTarSize then .ok img
      else
        match env.layerFromFile tarPath with
        | .error e => .error e
        | .ok layer =>
          match (if opts.cache then env.pushLayerToCache opts ck layer createdBy
                 else .ok ()) with
          | .error e => .error e
          | .ok _ =>
            .ok (mutateAppend img layer
              { author := constantsAuthor, createdBy := createdBy })

/-- Invariant of the image data model: the number of layers equals the
number of history entries that are not empty-layer entries. -/
def layerHistoryInvariant (img : Image) : Prop :=
  img.layers.length = (img.history.filter (fun h => !h.emptyLayer)).length

/-- Snapshot environment whose stat always reports the empty-tar size and
whose cache push always succeeds; used to evaluate saveSnapshotToImage. -/
def emptyTarEnv : SnapshotEnv :=
  { statSize := fun _ => .ok 1024
    layerFromFile := fun p => .ok ⟨p⟩
    pushLayerToCache := fun _ _ _ _ => .ok () }

/-- Snapshot environment with a non-empty tar whose cache push fails. -/
def failingPushEnv : SnapshotEnv :=
  { statSize := fun _ => .ok 2048
    layerFromFile := fun p => .ok ⟨p⟩
    pushLayerToCache := fun _ _ _ _ => .error "cache push failed" }

/-- Image with one base layer and its history record, satisfying the
layer/history invariant. -/
def baseImage : Image :=
  { layers := [⟨"base.tar"⟩]
    history := [{ author := "kaniko", createdBy := "FROM alpine" }] }

/-- C2 (behaviour of build.go at the failing input): when the snapshot
tar's size is at most emptyTarSize, saveSnapshotToImage returns the image
unchanged — no layer is appended, but contrary to the claim no empty-layer
history entry is recorded either (the image, history included, is returned
exactly as it came in). -/
theorem claim_C2_emptyTar (env : SnapshotEnv) (opts : KanikoOptions) (img : Image)
    (createdBy : String) (ck : List String) (tarPath : String) (sz : Nat)
    (hpath : (tarPath == "") = false)
    (hstat : env.statSize tarPath = .ok sz)
    (hsz : sz ≤ emptyTarSize) :
    saveSnapshotToImage env opts img createdBy ck tarPath = .ok img ∧
    (saveSnapshotToImage env opts img createdBy ck tarPath).map Image.history =
      .ok img.history := by
  have h : saveSnapshotToImage env opts img createdBy ck tarPath = .ok img := by
    unfold saveSnapshotToImage
    rw [hpath, hstat]
    simp [hsz]
  exact ⟨h, by rw [h]; rfl⟩

/-- Witness for C2: the concrete empty-tar evaluation; the base image's
history comes back untouched, with no empty-layer entry appended. -/
theorem claim_C2_emptyTar_witness :
    saveSnapshotToImage emptyTarEnv {} baseImage "RUN echo hi" [] "/snap.tar" =
      .ok baseImage ∧
    (saveSnapshotToImage emptyTarEnv {} baseImage "RUN echo hi" [] "/snap.tar").map
      Image.history = .ok baseImage.history :=
  claim_C2_emptyTar emptyTarEnv {} baseImage "RUN echo hi" [] "/snap.tar" 1024
    rfl rfl (by decide)

/-- Counterexample to C3 as stated: with caching enabled and a failing
cache push, saveSnapshotToImage does not log-and-continue; it returns the
push error and appends nothing. -/
theorem claim_C3_counterexample :
    saveSnapshotToImage failingPushEnv { cache := true } baseImage
      "RUN echo hi" ["k"] "/snap.tar" = .error "cache push failed" := rfl

/-- C3 amended: with Cache enabled, a failure of pushLayerToCache is
returned from saveSnapshotToImage (before the layer is appended), so the
stage — and hence the build — fails with that error. -/
theorem claim_C3_pushFailureFatal (env : SnapshotEnv) (opts : KanikoOptions)
    (img : Image) (createdBy : String) (ck : List String) (tarPath : String)
    (sz : Nat) (layer : Layer) (e : String)
    (hcache : opts.cache = true)
    (hpath : (tarPath == "") = false)
    (hstat : env.statSize tarPath = .ok sz)
    (hsz : ¬ sz ≤ emptyTarSize)
    (hlayer : env.layerFromFile tarPath = .ok layer)
    (hpush : env.pushLayerToCache opts ck layer createdBy = .error e) :
    saveSnapshotToImage env opts img createdBy ck tarPath = .error e := by
  unfold saveSnapshotToImage
  rw [hpath, hstat]
  simp only [hsz, if_false, hlayer, hcache, if_true, hpush]
  simp

/-- Witness for C3 amended: concrete failing push. -/
theorem claim_C3_pushFailureFatal_witness :
    saveSnapshotToImage failingPushEnv { cache := true } baseImage
      "RUN echo bye" ["k"] "/snap2.tar" = .error "cache push failed" :=
  claim_C3_pushFailureFatal failingPushEnv { cache := true } baseImage
    "RUN echo bye" ["k"] "/snap2.tar" 2048 ⟨"/snap2.tar"⟩ "cache push failed"
    rfl rfl rfl (by decide) rfl rfl

/-- Constant constants.Cmd, the Name() of a CMD instruction. -/
def constantsCmd : String := "cmd"

/-- Constant constants.Entrypoint, the Name() of an ENTRYPOINT instruction. -/
def constantsEntrypoint : String := "entrypoint"

/-- Loop body of reviewConfig (build.go): the pair is the state of the Go
flags (cmd, entrypoint); each command sets a flag when its Name() matches. -/
def reviewStep (fl : Bool × Bool) (c : Instr) : Bool × Bool :=
  let fl1 := if c.name == constantsCmd then (true, fl.2) else fl
  if c.name == constantsEntrypoint then (fl1.1, true) else fl1

/-- Embeds reviewConfig (build.go): scans the stage's commands for CMD and
ENTRYPOINT by Name() and clears config.Cmd when ENTRYPOINT was declared but
CMD was not. -/
def reviewConfig (stage : KanikoStage) (config : Config) : Config :=
  let fl := stage.commands.foldl reviewStep (false, false)
  if fl.2 && !fl.1 then { config with cmd := none } else config

theorem reviewStep_eq (fl : Bool × Bool) (c : Instr) :
    reviewStep fl c =
      (fl.1 || (c.name == constantsCmd), fl.2 || (c.name == constantsEntrypoint)) := by
  unfold reviewStep
  by_cases h1 : c.name == constantsCmd <;>
    by_cases h2 : c.name == constantsEntrypoint <;> simp [h1, h2]

theorem reviewConfig_foldl (cs : List Instr) (b1 b2 : Bool) :
    cs.foldl reviewStep (b1, b2) =
    (b1 || cs.any (fun c => c.name == constantsCmd),
     b2 || cs.any (fun c => c.name == constantsEntrypoint)) := by
  induction cs generalizing b1 b2 with
  | nil => simp
  | cons c rest ih =>
    simp only [List.foldl_cons, List.any_cons, reviewStep_eq]
    rw [ih]
    simp [Bool.or_assoc]

/-- C6: after a stage, reviewConfig clears Cmd exactly when the stage's
command list contains an ENTRYPOINT instruction but no CMD instruction, and
otherwise leaves the config unchanged. -/
theorem claim_C6_reviewConfig (stage : KanikoStage) (config : Config) :
    reviewConfig stage config =
      if (stage.commands.any (fun c => c.name == constantsEntrypoint)) &&
         !(stage.commands.any (fun c => c.name == constantsCmd)) then
        { config with cmd := none }
      else config := by
  unfold reviewConfig
  rw [reviewConfig_foldl]
  simp

instance exceptDecEq {ε α : Type} [DecidableEq ε] [DecidableEq α] :
    DecidableEq (Except ε α) := fun a b =>
  match a, b with
  | .error x, .error y =>
    if h : x = y then .isTrue (by rw [h]) else .isFalse (by simp [h])
  | .error _, .ok _ => .isFalse (by simp)
  | .ok _, .error _ => .isFalse (by simp)
  | .ok x, .ok y =>
    if h : x = y then .isTrue (by rw [h]) else .isFalse (by simp [h])

/-- Mirrors a v1.Image as produced by image retrieval: either the
distinguished empty.Image (the scratch base), or some other image carrying
the result of its ConfigFile() call. -/
inductive SrcImage where
  | emptyImage : SrcImage
  | image (cf : Except String ConfigFile) : SrcImage
deriving DecidableEq, BEq

/-- Result of sourceImage.ConfigFile(): empty.Image yields the zero-valued
config file; any other image yields whatever its accessor produced. -/
def SrcImage.configFile : SrcImage → Except String ConfigFile
  | .emptyImage => .ok {}
  | .image cf => cf

/-- Modelled from the spec: pkg/constants is absent from src/; the name of
the no-base (scratch) image. -/
def noBaseImage : String := "scratch"

/-- Modelled from the spec: pkg/constants is absent from src/; the default
PATH environment seeded for a scratch base. -/
def scratchEnvVars : List String :=
  ["PATH=/usr/local/sbin:/usr/local/bin:/usr/sbin:/usr/bin:/sbin:/bin"]

/-- External collaborators of stage construction, passed as oracles:
environment replacement (pkg/util/command_util.go, absent from src/),
tarball and remote image retrieval (network), an image digest accessor,
and the Dockerfile command re-parser used for ONBUILD. -/
structure BuildDeps where
  resolveEnv : String → List String → Except String String
  retrieveTarImage : Nat → Except String SrcImage
  retrieveRemoteImage : String → Except String SrcImage
  digestOf : SrcImage → Except String String
  parseCommands : List String → Except String (List Instr)

/-- Embeds util.RetrieveSourceImage (image_util.go): resolves the base
name against user build args plus the stage's meta args, returns the empty
image for scratch, the stored tarball for a prior-stage base, and otherwise
pulls the remote image. -/
def retrieveSourceImage (d : BuildDeps) (stage : KanikoStage)
    (opts : KanikoOptions) : Except String SrcImage :=
  match d.resolveEnv stage.baseName
      (opts.buildArgs ++ stage.metaArgs.map (fun arg => arg.1 ++ "=" ++ arg.2)) with
  | .error e => .error e
  | .ok currentBaseName =>
    if currentBaseName == noBaseImage then .ok .emptyImage
    else if stage.baseImageStoredLocally then d.retrieveTarImage stage.baseImageIndex
    else d.retrieveRemoteImage currentBaseName

/-- Embeds util.RetrieveConfigFile (image_util.go): reads the image's
config file and, exactly when the image is empty.Image, overwrites its Env
with the scratch environment. -/
def retrieveConfigFile (sourceImage : SrcImage) : Except String ConfigFile :=
  match sourceImage.configFile with
  | .error e => .error e
  | .ok imageConfig =>
    if sourceImage == .emptyImage then
      .ok { imageConfig with config := { imageConfig.config with env := scratchEnvVars } }
    else .ok imageConfig

/-- Embeds getHasher (build.go); the mode strings are modelled from the
spec (pkg/constants is absent from src/): SnapshotMode is full or time. -/
def getHasher (snapshotMode : String) : Except String String :=
  if snapshotMode == "time" then .ok "mtime"
  else if snapshotMode == "full" then .ok "full"
  else .error (snapshotMode ++ " is not a valid snapshot mode")

/-- Embeds resolveOnBuild (build.go): a nil OnBuild list is a no-op;
otherwise the expressions are re-parsed, the parsed commands are prepended
to the stage's commands, and OnBuild is blanked out.  The Go function
mutates the stage and config in place; the embedding returns the pair. -/
def resolveOnBuild (parseCommands : List String → Except String (List Instr))
    (stage : KanikoStage) (config : Config) :
    Except String (KanikoStage × Config) :=
  match config.onBuild with
  | none => .ok (stage, config)
  | some exprs =>
    match parseCommands exprs with
    | .error e => .error e
    | .ok cmds =>
      .ok ({ stage with commands := cmds ++ stage.commands },
           { config with onBuild := none })

/-- State assembled by newStageBuilder (build.go). -/
structure StageBuilderS where
  stage : KanikoStage
  image : SrcImage
  cf : ConfigFile
  baseImageDigest : String
deriving DecidableEq

/-- Embeds newStageBuilder (build.go): retrieve the source image and its
config file, resolve ONBUILD triggers, pick the hasher, and read the base
image digest; any error aborts stage construction. -/
def newStageBuilder (d : BuildDeps) (opts : KanikoOptions)
    (stage : KanikoStage) : Except String StageBuilderS :=
  match retrieveSourceImage d stage opts with
  | .error e => .error e
  | .ok sourceImage =>
    match retrieveConfigFile sourceImage with
    | .error e => .error e
    | .ok imageConfig =>
      match resolveOnBuild d.parseCommands stage imageConfig.config with
      | .error e => .error e
      | .ok (stage2, config2) =>
        match getHasher opts.snapshotMode with
        | .error e => .error e
        | .ok _hasher =>
          match d.digestOf sourceImage with
          | .error e => .error e
          | .ok digest =>
            .ok { stage := stage2, image := sourceImage,
                  cf := { imageConfig with config := config2 },
                  baseImageDigest := digest }

/-- C7: a stage whose resolved base name is the scratch image retrieves the
empty image, whose config file comes back with Env seeded to the default
PATH; the config file of any other source image is returned unmodified. -/
theorem claim_C7_scratchBase (d : BuildDeps) (stage : KanikoStage)
    (opts : KanikoOptions)
    (hresolve : d.resolveEnv stage.baseName
      (opts.buildArgs ++ stage.metaArgs.map (fun arg => arg.1 ++ "=" ++ arg.2)) =
      .ok noBaseImage) :
    retrieveSourceImage d stage opts = .ok .emptyImage ∧
    retrieveConfigFile .emptyImage =
      .ok { config := { env := scratchEnvVars } } ∧
    (∀ img cf, img ≠ SrcImage.emptyImage → img.configFile = .ok cf →
      retrieveConfigFile img = .ok cf) := by
  refine ⟨?_, rfl, ?_⟩
  · unfold retrieveSourceImage
    simp [hresolve]
  · intro img cf hne hcf
    unfold retrieveConfigFile
    have hbeq : (img == SrcImage.emptyImage) = false := by
      cases img with
      | emptyImage => exact absurd rfl hne
      | image c => rfl
    simp only [hcf, hbeq, Bool.false_eq_true, if_false]

/-- Witness for C7: a concrete scratch stage and a concrete non-empty
image. -/
theorem claim_C7_scratchBase_witness :
    retrieveSourceImage
      { resolveEnv := fun s _ => .ok s
        retrieveTarImage := fun _ => .error "no tar"
        retrieveRemoteImage := fun _ => .error "no net"
        digestOf := fun _ => .ok "sha256:0"
        parseCommands := fun _ => .ok [] }
      { baseName := "scratch" } {} = .ok .emptyImage ∧
    retrieveConfigFile .emptyImage = .ok { config := { env := scratchEnvVars } } ∧
    retrieveConfigFile (.image (.ok { config := { env := ["A=1"] } })) =
      .ok { config := { env := ["A=1"] } } := by
  have h := claim_C7_scratchBase
    { resolveEnv := fun s _ => .ok s
      retrieveTarImage := fun _ => .error "no tar"
      retrieveRemoteImage := fun _ => .error "no net"
      digestOf := fun _ => .ok "sha256:0"
      parseCommands := fun _ => .ok [] }
    { baseName := "scratch" } {} rfl
  exact ⟨h.1, h.2.1, h.2.2 (.image (.ok { config := { env := ["A=1"] } }))
    { config := { env := ["A=1"] } } (by simp) rfl⟩

/-- C5: when the base image config has a non-nil OnBuild list, stage
construction re-parses it: on success the parsed commands are prepended in
order to the stage's commands and OnBuild is cleared; on parse failure
newStageBuilder fails with that error. -/
theorem claim_C5_resolveOnBuild (d : BuildDeps) (opts : KanikoOptions)
    (stage : KanikoStage) (img : SrcImage) (cfgFile : ConfigFile)
    (exprs : List String)
    (hsrc : retrieveSourceImage d stage opts = .ok img)
    (hcf : retrieveConfigFile img = .ok cfgFile)
    (honbuild : cfgFile.config.onBuild = some exprs) :
    (∀ cmds, d.parseCommands exprs = .ok cmds →
      resolveOnBuild d.parseCommands stage cfgFile.config =
        .ok ({ stage with commands := cmds ++ stage.commands },
             { cfgFile.config with onBuild := none })) ∧
    (∀ e, d.parseCommands exprs = .error e →
      newStageBuilder d opts stage = .error e) := by
  constructor
  · intro cmds hparse
    unfold resolveOnBuild
    rw [honbuild]
    simp [hparse]
  · intro e hparse
    unfold newStageBuilder
    simp only [hsrc, hcf]
    unfold resolveOnBuild
    rw [honbuild]
    simp [hparse]

/-- Witness for C5: a concrete ONBUILD list, exercised both with a parser
that succeeds and with one that fails. -/
theorem claim_C5_resolveOnBuild_witness :
    resolveOnBuild (fun _ => .ok [⟨"copy"⟩])
      { commands := [⟨"run"⟩] } { onBuild := some ["COPY foo /bar"] } =
      .ok ({ commands := [⟨"copy"⟩, ⟨"run"⟩] },
           { onBuild := none }) ∧
    newStageBuilder
      { resolveEnv := fun s _ => .ok s
        retrieveTarImage := fun _ => .error "no tar"
        retrieveRemoteImage := fun _ =>
          .ok (.image (.ok { config := { onBuild := some ["ONBUILD RUN x"] } }))
        digestOf := fun _ => .ok "sha256:0"
        parseCommands := fun _ => .error "bad onbuild" }
      {} { baseName := "img", commands := [⟨"run"⟩] } = .error "bad onbuild" := by
  constructor
  · exact (claim_C5_resolveOnBuild
      { resolveEnv := fun s _ => .ok s
        retrieveTarImage := fun _ => .error "no tar"
        retrieveRemoteImage := fun _ =>
          .ok (.image (.ok { config := { onBuild := some ["COPY foo /bar"] } }))
        digestOf := fun _ => .ok "sha256:0"
        parseCommands := fun _ => .ok [⟨"copy"⟩] }
      {} { commands := [⟨"run"⟩] } (.image (.ok { config := { onBuild := some ["COPY foo /bar"] } }))
      { config := { onBuild := some ["COPY foo /bar"] } } ["COPY foo /bar"]
      (by rfl) (by rfl) rfl).1 [⟨"copy"⟩] rfl
  · exact (claim_C5_resolveOnBuild
      { resolveEnv := fun s _ => .ok s
        retrieveTarImage := fun _ => .error "no tar"
        retrieveRemoteImage := fun _ =>
          .ok (.image (.ok { config := { onBuild := some ["ONBUILD RUN x"] } }))
        digestOf := fun _ => .ok "sha256:0"
        parseCommands := fun _ => .error "bad onbuild" }
      {} { baseName := "img", commands := [⟨"run"⟩] }
      (.image (.ok { config := { onBuild := some ["ONBUILD RUN x"] } }))
      { config := { onBuild := some ["ONBUILD RUN x"] } } ["ONBUILD RUN x"]
      (by rfl) (by rfl) rfl).2 "bad onbuild" rfl

/-- Modelled from the spec: pkg/executor/composite_cache.go is absent from
src/.  The Composite Cache Key is an ordered sequence of contributions;
Hash() is the sha256 of the canonical concatenation, modelled here by the
contribution sequence itself (standing in, injectively, for the digest). -/
structure CompositeCache where
  keys : List String
deriving Repr, DecidableEq

/-- Modelled from the spec: NewCompositeCache seeds the key sequence. -/
def NewCompositeCache (key : String) : CompositeCache := ⟨[key]⟩

/-- Modelled from the spec: AddKey appends contributions in order (build.go
calls it both with one instruction string and variadically with all build
args). -/
def CompositeCache.addKey (c : CompositeCache) (ks : List String) : CompositeCache :=
  ⟨c.keys ++ ks⟩

/-- Modelled from the spec: AddPath appends the hash of the file at the
path, computed by the selected hasher (passed as an oracle). -/
def CompositeCache.addPath (hashFile : String → String) (c : CompositeCache)
    (p : String) : CompositeCache :=
  ⟨c.keys ++ [hashFile p]⟩

/-- Modelled from the spec: Hash of the composite key. -/
def CompositeCache.hash (c : CompositeCache) : List String := c.keys

/-- Mirrors commands.DockerCommand as consumed by the build loop: its
String(), the files FilesUsedFromContext reports, whether CacheCommand
returns a substitute, and whether this command already is the caching
substitute. -/
structure DockerCmd where
  str : String
  filesUsedFromContext : List String := []
  hasCacheCommand : Bool := false
  cached : Bool := false
deriving Repr, DecidableEq

/-- Embeds command.CacheCommand(img): nil for commands without a caching
substitute, otherwise the substitute carrying the cached layer. -/
def cacheCommandOf (c : DockerCmd) : Option DockerCmd :=
  if c.hasCacheCommand then some { c with cached := true } else none

/-- Embeds the cache-substitution loop of stageBuilder.build (build.go,
the body of the if s.opts.Cache block): for each non-nil command the
current compositeKey.Hash() is passed to layerCache.RetrieveLayer; a miss
breaks the loop, a hit swaps in the CacheCommand substitute.  Note that
this loop never calls AddKey or AddPath, so compositeKey is threaded
through unchanged.  Returns the updated command list together with the
sequence of keys that were passed to RetrieveLayer. -/
def replaceCachedCommands (retrieve : List String → Option Unit)
    (compositeKey : CompositeCache) :
    List (Option DockerCmd) → List (Option DockerCmd) × List (List String)
  | [] => ([], [])
  | none :: rest =>
    let r := replaceCachedCommands retrieve compositeKey rest
    (none :: r.1, r.2)
  | some command :: rest =>
    match retrieve compositeKey.hash with
    | none => (some command :: rest, [compositeKey.hash])
    | some _img =>
      let command2 :=
        match cacheCommandOf command with
        | some cacheCmd => cacheCmd
        | none => command
      let r := replaceCachedCommands retrieve compositeKey rest
      (some command2 :: r.1, compositeKey.hash :: r.2)

/-- Embeds the per-instruction cache-key advance of the execution loop of
stageBuilder.build (build.go): AddKey(command.String()), then AddPath(f)
for every file the command uses from the context; the listed value is the
compositeKey.Hash() current at that instruction (the key under which a
non-empty snapshot of the instruction is pushed to the cache). -/
def execLoopKeys (hashFile : String → String) (compositeKey : CompositeCache) :
    List (Option DockerCmd) → List (List String)
  | [] => []
  | none :: rest => execLoopKeys hashFile compositeKey rest
  | some command :: rest =>
    let k2 := (compositeKey.addKey [command.str]).keys ++
      command.filesUsedFromContext.map hashFile
    CompositeCache.hash ⟨k2⟩ :: execLoopKeys hashFile ⟨k2⟩ rest

/-- Follows the words of claim C1: the key the spec says is passed to
RetrieveLayer for the i-th instruction — the hash of the sequence
base image digest, user build args, then for each instruction up to and
including i its string and the hashes of its context files. -/
def claimRetrieveKey (hashFile : String → String) (baseImageDigest : String)
    (buildArgs : List String) (cmds : List DockerCmd) (i : Nat) : List String :=
  baseImageDigest :: buildArgs ++
    ((cmds.take (i + 1)).map
      (fun c => c.str :: c.filesUsedFromContext.map hashFile)).flatten

/-- Hasher oracle for the concrete C1 scenario. -/
def demoHashFile (p : String) : String := "h(" ++ p ++ ")"

/-- Initial composite key of build(): NewCompositeCache(baseImageDigest)
followed by AddKey(BuildArgs...). -/
def demoSeedKey : CompositeCache :=
  (NewCompositeCache "sha256:base").addKey ["FOO=bar"]

/-- First instruction of the concrete C1 scenario. -/
def demoCmd0 : DockerCmd := { str := "RUN foobar", hasCacheCommand := true }

/-- Second instruction of the concrete C1 scenario; it uses one context
file. -/
def demoCmd1 : DockerCmd :=
  { str := "COPY a b", filesUsedFromContext := ["/ctx/a"], hasCacheCommand := true }

/-- Layer cache oracle that hits on every key. -/
def alwaysHitCache (_ : List String) : Option Unit := some ()

/-- C1 (behaviour of build.go at the failing input): in the concrete
two-instruction cached stage the substitution loop passes the unadvanced
seed hash to RetrieveLayer for both instructions; the key the claim
prescribes for instruction 1 differs from it, and is instead exactly the
key under which the execution loop later pushes that instruction's layer —
so lookups and pushes can never agree on a key. -/
theorem claim_C1_retrieveKeysNotAdvanced :
    (replaceCachedCommands alwaysHitCache demoSeedKey
        [some demoCmd0, some demoCmd1]).2 =
      [demoSeedKey.hash, demoSeedKey.hash] ∧
    claimRetrieveKey demoHashFile "sha256:base" ["FOO=bar"]
        [demoCmd0, demoCmd1] 1 ≠ demoSeedKey.hash ∧
    execLoopKeys demoHashFile demoSeedKey [some demoCmd0, some demoCmd1] =
      [claimRetrieveKey demoHashFile "sha256:base" ["FOO=bar"] [demoCmd0, demoCmd1] 0,
       claimRetrieveKey demoHashFile "sha256:base" ["FOO=bar"] [demoCmd0, demoCmd1] 1] := by
  refine ⟨rfl, ?_, rfl⟩
  decide

/-- Mirrors docker instructions.Command as far as ResolveStages (the
dockerfile package) inspects it: COPY commands carry their From field,
every other command is opaque. -/
inductive DInstr where
  | copy (fromStage : String) (sourcesAndDest : List String) : DInstr
  | other (text : String) : DInstr
deriving Repr, DecidableEq

/-- Mirrors docker instructions.Stage as far as ResolveStages inspects it. -/
structure DStage where
  name : String := ""
  commands : List DInstr := []
deriving Repr, DecidableEq

/-- Go map semantics for nameToIndex: assignment prepends, lookup takes the
newest entry, so later assignments overwrite earlier ones. -/
def lookupStr : List (String × String) → String → Option String
  | [], _ => none
  | p :: rest, x => if p.1 == x then some p.2 else lookupStr rest x

/-- Inner loop body of ResolveStages (dockerfile package): a CopyCommand
with a non-empty From that is a key of nameToIndex gets the mapped index. -/
def resolveCmd (m : List (String × String)) : DInstr → DInstr
  | .copy f srcs =>
    if f == "" then .copy f srcs
    else
      match lookupStr m f with
      | some val => .copy val srcs
      | none => .copy f srcs
  | .other t => .other t

/-- Map update at the top of each ResolveStages iteration: when the stage's
name differs from its index string the mapping name to index is recorded. -/
def stageMapInsert (m : List (String × String)) (i : Nat) (stage : DStage) :
    List (String × String) :=
  if stage.name == Nat.repr i then m else (stage.name, Nat.repr i) :: m

/-- Embeds the loop of ResolveStages (dockerfile package): the name-to-
index map accumulates stage by stage, and each stage's commands are
rewritten with the map as of that stage (its own entry included). -/
def resolveStagesAux (m : List (String × String)) (i : Nat) :
    List DStage → List DStage
  | [] => []
  | stage :: rest =>
    { stage with
        commands := stage.commands.map (resolveCmd (stageMapInsert m i stage)) } ::
      resolveStagesAux (stageMapInsert m i stage) (i + 1) rest

/-- Embeds ResolveStages (dockerfile package): rewrites every
COPY --from=name to the referenced stage's index. -/
def ResolveStages (stages : List DStage) : List DStage :=
  resolveStagesAux [] 0 stages

/-- First stage of the C8 counterexample: a stage whose name is the index
string of another stage. -/
def cexStage0 : DStage := { name := "1" }

/-- Second stage of the C8 counterexample: it copies from the stage named
b — which is itself, so one resolution maps b to 1, and a second
resolution maps that 1 on to 0 via the first stage's name. -/
def cexStage1 : DStage := { name := "b", commands := [.copy "b" ["/x", "/y"]] }

/-- Counterexample to C8 as stated: ResolveStages is not idempotent for
every list of stages; a stage named 1 re-routes an already-resolved index
on the second application. -/
theorem claim_C8_counterexample :
    ResolveStages (ResolveStages [cexStage0, cexStage1]) ≠
      ResolveStages [cexStage0, cexStage1] := by decide

theorem lookupStr_eq_none (m : List (String × String)) (x : String)
    (h : ∀ p ∈ m, p.1 ≠ x) : lookupStr m x = none := by
  induction m with
  | nil => rfl
  | cons p rest ih =>
    have hp : (p.1 == x) = false := by
      simp only [beq_eq_false_iff_ne, ne_eq]
      exact h p (List.mem_cons_self p rest)
    simp only [lookupStr, hp, Bool.false_eq_true, if_false]
    exact ih (fun q hq => h q (List.mem_cons_of_mem p hq))

theorem lookupStr_mem (m : List (String × String)) (x v : String)
    (h : lookupStr m x = some v) : ∃ p ∈ m, p.1 = x ∧ p.2 = v := by
  induction m with
  | nil => simp [lookupStr] at h
  | cons p rest ih =>
    by_cases hp : (p.1 == x) = true
    · refine ⟨p, List.mem_cons_self p rest, by simpa using hp, ?_⟩
      simp only [lookupStr, hp, if_true, Option.some.injEq] at h
      exact h
    · simp only [lookupStr, hp, if_false] at h
      obtain ⟨q, hq, hqx, hqv⟩ := ih h
      exact ⟨q, List.mem_cons_of_mem p hq, hqx, hqv⟩

theorem resolveCmd_idem (N : Nat) (m : List (String × String))
    (hkeys : ∀ p ∈ m, ∀ j, j < N → p.1 ≠ Nat.repr j)
    (hvals : ∀ p ∈ m, ∃ j, j < N ∧ p.2 = Nat.repr j) (c : DInstr) :
    resolveCmd m (resolveCmd m c) = resolveCmd m c := by
  cases c with
  | other t => rfl
  | copy f srcs =>
    by_cases hf : (f == "") = true
    · simp only [resolveCmd, hf, if_true]
    · cases hl : lookupStr m f with
      | none => simp only [resolveCmd, hf, Bool.false_eq_true, if_false, hl]
      | some v =>
        simp only [resolveCmd, hf, Bool.false_eq_true, if_false, hl]
        obtain ⟨p, hpm, hpx, hpv⟩ := lookupStr_mem m f v hl
        obtain ⟨j, hj, hv⟩ := hvals p hpm
        by_cases hv0 : (v == "") = true
        · simp only [hv0, if_true]
        · have : lookupStr m v = none := by
            apply lookupStr_eq_none
            intro q hq
            rw [hpv] at hv
            rw [hv]
            exact hkeys q hq j hj
          simp only [hv0, Bool.false_eq_true, if_false, this]

theorem resolveStagesAux_name (m : List (String × String)) (i : Nat)
    (stage : DStage) (cs : List DInstr) :
    stageMapInsert m i { stage with commands := cs } = stageMapInsert m i stage := rfl

theorem resolveStagesAux_idem (N : Nat) (l : List DStage) :
    ∀ (m : List (String × String)) (i : Nat),
    (∀ p ∈ m, ∀ j, j < N → p.1 ≠ Nat.repr j) →
    (∀ p ∈ m, ∃ j, j < N ∧ p.2 = Nat.repr j) →
    i + l.length ≤ N →
    (∀ k s, l.get? k = some s → ∀ j, j < N → s.name = Nat.repr j → j = i + k) →
    resolveStagesAux m i (resolveStagesAux m i l) = resolveStagesAux m i l := by
  induction l with
  | nil => intro m i _ _ _ _; rfl
  | cons stage rest ih =>
    intro m i hkeys hvals hlen hnames
    have hiN : i < N := by
      simp only [List.length_cons] at hlen
      omega
    have hname0 : ∀ j, j < N → stage.name = Nat.repr j → j = i := by
      intro j hj hn
      simpa using hnames 0 stage rfl j hj hn
    have hkeys2 : ∀ p ∈ stageMapInsert m i stage, ∀ j, j < N → p.1 ≠ Nat.repr j := by
      intro p hp j hj
      unfold stageMapInsert at hp
      by_cases hni : (stage.name == Nat.repr i) = true
      · rw [if_pos hni] at hp
        exact hkeys p hp j hj
      · rw [if_neg hni] at hp
        rcases List.mem_cons.mp hp with hhead | htail
        · rw [hhead]
          intro hc
          have := hname0 j hj hc
          rw [this] at hc
          exact hni (by simpa using hc)
        · exact hkeys p htail j hj
    have hvals2 : ∀ p ∈ stageMapInsert m i stage, ∃ j, j < N ∧ p.2 = Nat.repr j := by
      intro p hp
      unfold stageMapInsert at hp
      by_cases hni : (stage.name == Nat.repr i) = true
      · rw [if_pos hni] at hp
        exact hvals p hp
      · rw [if_neg hni] at hp
        rcases List.mem_cons.mp hp with hhead | htail
        · exact ⟨i, hiN, by rw [hhead]⟩
        · exact hvals p htail
    have hlen2 : (i + 1) + rest.length ≤ N := by
      simp only [List.length_cons] at hlen
      omega
    have hnames2 : ∀ k s, rest.get? k = some s → ∀ j, j < N →
        s.name = Nat.repr j → j = (i + 1) + k := by
      intro k s hk j hj hn
      have := hnames (k + 1) s (by simpa using hk) j hj hn
      omega
    have hcmds : (stage.commands.map (resolveCmd (stageMapInsert m i stage))).map
        (resolveCmd (stageMapInsert m i stage)) =
        stage.commands.map (resolveCmd (stageMapInsert m i stage)) := by
      rw [List.map_map]
      apply List.map_congr_left
      intro c _
      exact resolveCmd_idem N (stageMapInsert m i stage) hkeys2 hvals2 c
    calc resolveStagesAux m i (resolveStagesAux m i (stage :: rest)) =
        { stage with
            commands := (stage.commands.map (resolveCmd (stageMapInsert m i stage))).map
              (resolveCmd (stageMapInsert m i stage)) } ::
          resolveStagesAux (stageMapInsert m i stage) (i + 1)
            (resolveStagesAux (stageMapInsert m i stage) (i + 1) rest) := rfl
      _ = { stage with
            commands := stage.commands.map (resolveCmd (stageMapInsert m i stage)) } ::
          resolveStagesAux (stageMapInsert m i stage) (i + 1) rest := by
          rw [hcmds, ih (stageMapInsert m i stage) (i + 1) hkeys2 hvals2 hlen2 hnames2]
      _ = resolveStagesAux m i (stage :: rest) := rfl

/-- C8 amended: ResolveStages is idempotent for every list of stages in
which no stage's name is the decimal index string of a different stage (a
stage's name may coincide with its own index, as the code's own
name-differs-from-index guard anticipates); the original claim's universal
quantification over all stage lists fails, see the counterexample. -/
theorem claim_C8_amended (stages : List DStage)
    (hnames : ∀ k s, stages.get? k = some s → ∀ j, j < stages.length →
      s.name = Nat.repr j → j = k) :
    ResolveStages (ResolveStages stages) = ResolveStages stages := by
  unfold ResolveStages
  apply resolveStagesAux_idem stages.length stages [] 0
  · intro p hp
    simp at hp
  · intro p hp
    simp at hp
  · simp
  · intro k s hk j hj hn
    simpa using hnames k s hk j hj hn

/-- Witness for C8 amended: a two-stage list with a named builder stage,
as the Dockerfile parser would produce it. -/
theorem claim_C8_amended_witness :
    ResolveStages (ResolveStages
      [{ name := "builder" }, { name := "", commands := [.copy "builder" ["/out", "/out"]] }]) =
    ResolveStages
      [{ name := "builder" }, { name := "", commands := [.copy "builder" ["/out", "/out"]] }] := by
  apply claim_C8_amended
  intro k s hk j hj hn
  match k with
  | 0 =>
    simp only [List.get?] at hk
    cases hk
    simp only [List.length_cons, List.length_nil] at hj
    interval_cases j <;> revert hn <;> decide
  | 1 =>
    simp only [List.get?] at hk
    cases hk
    simp only [List.length_cons, List.length_nil] at hj
    interval_cases j <;> revert hn <;> decide
  | (n + 2) =>
    simp only [List.get?] at hk
    cases hk

/-- Observable side effects of DoBuild, in execution order. -/
inductive BuildEvent where
  | stageBuilt (idx : Nat) : BuildEvent
  | savedTarball (idx : Nat) : BuildEvent
  | extractedDeps (idx : Nat) : BuildEvent
  | deletedFilesystem : BuildEvent
deriving Repr, DecidableEq

/-- Operations DoBuild (build.go) delegates to, as oracles: Dockerfile
stage parsing, stage-builder construction, stageBuilder.build,
mutate.Config / mutate.CreatedAt / mutate.Canonical, intermediate-stage
persistence, and filesystem deletion. -/
structure DoBuildOps where
  stagesOf : Except String (List KanikoStage)
  newStageBuilderOp : KanikoStage → Except String StageBuilderS
  buildOp : StageBuilderS → Except String StageBuilderS
  mutateConfig : SrcImage → Config → Except String Image
  mutateCreatedAt : Image → Except String Image
  mutateCanonical : Image → Except String Image
  saveStageAsTarball : Nat → Image → Except String Unit
  extractImageToDependecyDir : Nat → Image → Except String Unit
  deleteFilesystem : Except String Unit

/-- Embeds the stage loop of DoBuild (build.go).  The pair of options
mirrors Go's two return values (v1.Image, error), each of which may be
nil; the event list records the side effects performed.  A final stage
returns its image; a non-final stage is persisted when SaveStage is set,
the filesystem is deleted, and the loop continues.  Falling off the end of
the loop reaches the final return nil, err statement, whose err is the
long-spent nil result of the stage-parsing check. -/
def doBuildLoop (ops : DoBuildOps) (opts : KanikoOptions) :
    Nat → List KanikoStage → (Option Image × Option String) × List BuildEvent
  | _, [] => ((none, none), [])
  | index, stage :: rest =>
    match ops.newStageBuilderOp stage with
    | .error e =>
      ((none, some ("getting stage builder for stage " ++ Nat.repr index ++ ": " ++ e)), [])
    | .ok sb =>
      match ops.buildOp sb with
      | .error e => ((none, some ("error building stage: " ++ e)), [])
      | .ok sb2 =>
        match ops.mutateConfig sb2.image (reviewConfig stage sb2.cf.config) with
        | .error e => ((none, some e), [BuildEvent.stageBuilt index])
        | .ok sourceImage =>
          if stage.final then
            match ops.mutateCreatedAt sourceImage with
            | .error e => ((none, some e), [BuildEvent.stageBuilt index])
            | .ok s2 =>
              match (if opts.reproducible then ops.mutateCanonical s2 else Except.ok s2) with
              | .error e => ((none, some e), [BuildEvent.stageBuilt index])
              | .ok s3 =>
                match (if opts.cleanup then ops.deleteFilesystem else Except.ok ()) with
                | .error e => ((none, some e), [BuildEvent.stageBuilt index])
                | .ok _ => ((some s3, none), [BuildEvent.stageBuilt index])
          else
            match (if stage.saveStage then
                     match ops.saveStageAsTarball index sourceImage with
                     | .error e => Except.error e
                     | .ok _ => ops.extractImageToDependecyDir index sourceImage
                   else Except.ok ()) with
            | .error e => ((none, some e), [BuildEvent.stageBuilt index])
            | .ok _ =>
              match ops.deleteFilesystem with
              | .error e => ((none, some e), [BuildEvent.stageBuilt index])
              | .ok _ =>
                let r := doBuildLoop ops opts (index + 1) rest
                (r.1, BuildEvent.stageBuilt index ::
                  ((if stage.saveStage then
                      [BuildEvent.savedTarball index, BuildEvent.extractedDeps index]
                    else []) ++ BuildEvent.deletedFilesystem :: r.2))

/-- Embeds DoBuild (build.go): parse the stages, then run the loop. -/
def DoBuild (ops : DoBuildOps) (opts : KanikoOptions) :
    (Option Image × Option String) × List BuildEvent :=
  match ops.stagesOf with
  | .error e => ((none, some e), [])
  | .ok stages => doBuildLoop ops opts 0 stages

/-- The side effects DoBuild performs per iterated stage when every stage
is intermediate: build it, persist it when SaveStage is set, and delete
the filesystem. -/
def expectedTrace : Nat → List KanikoStage → List BuildEvent
  | _, [] => []
  | i, stage :: rest =>
    BuildEvent.stageBuilt i ::
      ((if stage.saveStage then [BuildEvent.savedTarball i, BuildEvent.extractedDeps i]
        else []) ++
        BuildEvent.deletedFilesystem :: expectedTrace (i + 1) rest)

theorem doBuildLoop_noFinal (ops : DoBuildOps) (opts : KanikoOptions)
    (hnew : ∀ s, ∃ sb, ops.newStageBuilderOp s = .ok sb)
    (hbuild : ∀ sb, ∃ sb2, ops.buildOp sb = .ok sb2)
    (hmc : ∀ img cfg, ∃ out, ops.mutateConfig img cfg = .ok out)
    (hsave : ∀ i img, ops.saveStageAsTarball i img = .ok ())
    (hex : ∀ i img, ops.extractImageToDependecyDir i img = .ok ())
    (hdel : ops.deleteFilesystem = .ok ()) :
    ∀ (stages : List KanikoStage) (index : Nat),
    (∀ s ∈ stages, s.final = false) →
    doBuildLoop ops opts index stages = ((none, none), expectedTrace index stages) := by
  intro stages
  induction stages with
  | nil => intro index _; rfl
  | cons stage rest ih =>
    intro index hnofinal
    have hfin : stage.final = false := hnofinal stage (List.mem_cons_self stage rest)
    obtain ⟨sb, hsb⟩ := hnew stage
    obtain ⟨sb2, hsb2⟩ := hbuild sb
    obtain ⟨src, hsrc⟩ := hmc sb2.image (reviewConfig stage sb2.cf.config)
    have hrest := ih (index + 1) (fun s hs => hnofinal s (List.mem_cons_of_mem stage hs))
    simp only [doBuildLoop, hsb, hsb2, hsrc, hfin, Bool.false_eq_true, if_false, hrest]
    cases hsv : stage.saveStage with
    | false => simp [expectedTrace, hsv, hdel]
    | true => simp [expectedTrace, hsv, hdel, hsave index src, hex index src]

/-- C9: when the parsed stage list contains no Final stage, DoBuild
iterates every stage — persisting SaveStage stages and deleting the
filesystem after each, as for intermediate stages — and then returns a nil
image together with a nil error. -/
theorem claim_C9_noFinalStage (ops : DoBuildOps) (opts : KanikoOptions)
    (stages : List KanikoStage)
    (hstages : ops.stagesOf = .ok stages)
    (hnofinal : ∀ s ∈ stages, s.final = false)
    (hnew : ∀ s, ∃ sb, ops.newStageBuilderOp s = .ok sb)
    (hbuild : ∀ sb, ∃ sb2, ops.buildOp sb = .ok sb2)
    (hmc : ∀ img cfg, ∃ out, ops.mutateConfig img cfg = .ok out)
    (hsave : ∀ i img, ops.saveStageAsTarball i img = .ok ())
    (hex : ∀ i img, ops.extractImageToDependecyDir i img = .ok ())
    (hdel : ops.deleteFilesystem = .ok ()) :
    DoBuild ops opts = ((none, none), expectedTrace 0 stages) := by
  unfold DoBuild
  rw [hstages]
  exact doBuildLoop_noFinal ops opts hnew hbuild hmc hsave hex hdel stages 0 hnofinal

/-- Stage-builder state used by the C9 witness. -/
def wSb : StageBuilderS :=
  { stage := {}, image := .emptyImage, cf := {}, baseImageDigest := "sha256:0" }

/-- Concrete all-succeeding operations for the C9 witness. -/
def wOps : DoBuildOps :=
  { stagesOf := .ok [{ saveStage := true }, { name := "second" }]
    newStageBuilderOp := fun _ => .ok wSb
    buildOp := fun sb => .ok sb
    mutateConfig := fun _ _ => .ok {}
    mutateCreatedAt := fun img => .ok img
    mutateCanonical := fun img => .ok img
    saveStageAsTarball := fun _ _ => .ok ()
    extractImageToDependecyDir := fun _ _ => .ok ()
    deleteFilesystem := .ok () }

/-- Witness for C9: two intermediate stages, the first saved; DoBuild
returns the nil/nil pair after walking both. -/
theorem claim_C9_noFinalStage_witness :
    DoBuild wOps {} =
      ((none, none),
       [BuildEvent.stageBuilt 0, BuildEvent.savedTarball 0, BuildEvent.extractedDeps 0,
        BuildEvent.deletedFilesystem, BuildEvent.stageBuilt 1,
        BuildEvent.deletedFilesystem]) := by
  have h := claim_C9_noFinalStage wOps {}
    [{ saveStage := true }, { name := "second" }] rfl
    (by
      intro s hs
      rcases List.mem_cons.mp hs with rfl | hs2
      · rfl
      · rcases List.mem_cons.mp hs2 with rfl | hs3
        · rfl
        · cases hs3)
    (fun s => ⟨wSb, rfl⟩) (fun sb => ⟨sb, rfl⟩) (fun img cfg => ⟨{}, rfl⟩)
    (fun i img => rfl) (fun i img => rfl) rfl
  rw [h]
  rfl

end Kaniko
